import Mathlib

/-!
Shallow embedding of the nutrition-calculation backend (`src/app.py`).

The aggregation core is the Flask handler `calculate_nutrition`
(app.py lines 157–183): it reads a JSON list of `{fdcId, quantity}`
ingredient lines, rejects an empty list with HTTP 400, then loops over
the lines in order.  For each line it coerces the quantity with
`float(...)` (a failed coercion raises and is caught by the surrounding
`except`, producing HTTP 500), validates `not fdc_id or quantity <= 0`
(HTTP 400), issues the remote per-food lookup, extracts the five
recognized nutrients by id (absent ones default to 0 via `.get(nid, 0)`),
scales by `quantity / 100` and accumulates into `total_nutrients`.

Numbers are modelled as rationals (`ℚ`); the remote collaborator is an
oracle `Remote` from food identifiers to an optional response, `none`
standing for any `requests` failure or non-2xx status (both raise in the
Python code).  The embedding also counts the remote calls issued, which
several claims about fail-fast behaviour need.
-/

/-- A nutrient profile / totals object.  The Python code keeps these as
dicts built from `NUTRIENT_IDS = {calories:1008, protein:1003, fat:1004,
carbohydrates:1005, fiber:1079}`; since `total_nutrients` is initialized
with all five keys and `profileOf` below fills all five, a structure with
exactly these five fields is the faithful shape. -/
structure NutrientProfile where
  calories : ℚ
  protein : ℚ
  fat : ℚ
  carbohydrates : ℚ
  fiber : ℚ
deriving DecidableEq, Repr

/-- The all-zero totals, `{key: 0 for key in NUTRIENT_IDS}` (app.py:165). -/
def zeroProfile : NutrientProfile := ⟨0, 0, 0, 0, 0⟩

/-- The value found under `'quantity'` in an ingredient dict: either a
Python value on which `float(...)` succeeds (an int/float or a numeric
string), carried as its numeric value, or one on which `float(...)`
raises (non-numeric string, `None`, a list, ...). -/
inductive PyVal where
  | num (q : ℚ)
  | bad
deriving DecidableEq, Repr

/-- `float(v)`: `some q` when the coercion succeeds, `none` when it raises. -/
def pyFloat : PyVal → Option ℚ
  | .num q => some q
  | .bad => none

/-- One inbound ingredient line as the handler sees it:
`ingredient.get('fdcId')` is `none` when the key is absent, and
`ingredient.get('quantity', 0)` defaults to `0` when the key is absent
(modelled by `Option PyVal` with `getD (.num 0)`). -/
structure Ingredient where
  fdcId : Option String
  quantity : Option PyVal
deriving DecidableEq, Repr

/-- Python truthiness of the `fdcId` value (`not fdc_id` at app.py:169):
an absent key or an empty string is falsy; any other string is truthy. -/
def truthyId : Option String → Option String
  | none => none
  | some s => if s = "" then none else some s

/-- A remote per-food response: `food_data.get('foodNutrients', [])`,
each entry a nutrient id paired with its `amount` value (`none` when the
`'amount'` key is absent, defaulted to 0 by `n.get('amount', 0)`).
Entries whose `'nutrient'`/`'id'` keys are missing are filtered out by
the dict comprehension guard and so are not modelled. -/
abbrev FoodNutrients := List (ℕ × Option ℚ)

/-- The remote collaborator: `none` models any `requests.get` failure or
non-2xx status (both raise in the Python code). -/
abbrev Remote := String → Option FoodNutrients

/-- The dict comprehension at app.py:176,
`{n['nutrient']['id']: n.get('amount', 0) for n in ...}`:
a Python dict keeps the last binding for a repeated key. -/
def nutrientsDict (fns : FoodNutrients) : List (ℕ × ℚ) :=
  fns.map (fun p => (p.1, p.2.getD 0))

/-- `nutrients.get(nid, 0)` (app.py:178): last binding wins, absent
nutrient ids default to 0. -/
def nutrientsGet (d : List (ℕ × ℚ)) (nid : ℕ) : ℚ :=
  ((d.reverse.find? (fun p => p.1 == nid)).map Prod.snd).getD 0

/-- The five-key profile extracted from one remote response. -/
def profileOf (fns : FoodNutrients) : NutrientProfile :=
  let d := nutrientsDict fns
  { calories := nutrientsGet d 1008
    protein := nutrientsGet d 1003
    fat := nutrientsGet d 1004
    carbohydrates := nutrientsGet d 1005
    fiber := nutrientsGet d 1079 }

/-- One pass of the inner `for key, nid in NUTRIENT_IDS.items()` loop:
`total_nutrients[key] += nutrients.get(nid, 0) * scaling_factor`. -/
def addScaled (t p : NutrientProfile) (scale : ℚ) : NutrientProfile :=
  { calories := t.calories + p.calories * scale
    protein := t.protein + p.protein * scale
    fat := t.fat + p.fat * scale
    carbohydrates := t.carbohydrates + p.carbohydrates * scale
    fiber := t.fiber + p.fiber * scale }

/-- How a `calculate_nutrition` request can fail.  `noIngredients` and
`invalidIngredient` are the two explicit `error_response(..., 400)`
returns; `coercion` is the exception raised by `float(...)` and `remote`
the exception raised by `requests.get`/`raise_for_status`, both caught
at app.py:181–183 and turned into `error_response(str(e), 500)`. -/
inductive CalcError where
  | noIngredients
  | invalidIngredient
  | coercion
  | remote (fdcId : String)
deriving DecidableEq, Repr

/-- The HTTP status `error_response` attaches to each failure. -/
def httpStatus : CalcError → ℕ
  | .noIngredients => 400
  | .invalidIngredient => 400
  | .coercion => 500
  | .remote _ => 500

/-- The spec's `ValidationError` kind: exactly the 400-status failures. -/
def isValidation (e : CalcError) : Bool :=
  match e with
  | .noIngredients => true
  | .invalidIngredient => true
  | .coercion => false
  | .remote _ => false

/-- The `for ingredient in ingredients:` loop (app.py:166–178), also
counting the remote calls issued.  Per line: coerce the quantity
(raise ⇒ 500), validate id truthiness and positivity (⇒ 400), issue the
remote call (failure ⇒ 500, counted — the request was sent), extract
the profile and accumulate scaled by `quantity / 100`. -/
def calcLoop (remote : Remote) :
    List Ingredient → NutrientProfile → ℕ → Except CalcError NutrientProfile × ℕ
  | [], acc, n => (.ok acc, n)
  | ing :: rest, acc, n =>
    match pyFloat (ing.quantity.getD (.num 0)) with
    | none => (.error .coercion, n)
    | some q =>
      match truthyId ing.fdcId with
      | none => (.error .invalidIngredient, n)
      | some fid =>
        if q ≤ 0 then (.error .invalidIngredient, n)
        else
          match remote fid with
          | none => (.error (.remote fid), n + 1)
          | some fns =>
            calcLoop remote rest (addScaled acc (profileOf fns) (q / 100)) (n + 1)

/-- The `calculate_nutrition` handler body (app.py:160–183): the empty
list is rejected up front (`if not ingredients`), then the loop runs
from the all-zero totals.  Result paired with the remote-call count. -/
def calculate_nutrition (remote : Remote) (ingredients : List Ingredient) :
    Except CalcError NutrientProfile × ℕ :=
  if ingredients = [] then (.error .noIngredients, 0)
  else calcLoop remote ingredients zeroProfile 0

/-! ## Nutrient Cache and Resolver

`src/app.py` has no cache: `calculate_nutrition` issues a remote call per
line unconditionally.  The spec (§4.1–4.2, §9) describes a shared
Cache + Resolver taken from the repository's most feature-complete
variant, which is not among the source files here, so these two
components are modelled from the spec's words. -/

/-- Modelled from the spec: the Nutrient Cache (§4.1), absent from
`src/app.py`.  A key-value store from food identifier to profile;
`get(foodId) -> NutrientProfile | absent`. -/
def cacheGet (c : List (String × NutrientProfile)) (fid : String) :
    Option NutrientProfile :=
  (c.find? (fun p => p.1 = fid)).map Prod.snd

/-- Modelled from the spec: Cache `put(foodId, description, profile)`
(§4.1), absent from `src/app.py`.  Overwrites any existing entry for the
same `foodId` (idempotent upsert, last writer wins). -/
def cachePut (c : List (String × NutrientProfile)) (fid : String)
    (p : NutrientProfile) : List (String × NutrientProfile) :=
  (fid, p) :: c.filter (fun q => q.1 ≠ fid)

/-- Modelled from the spec: the Resolver's failure kinds (§4.2, §7). -/
inductive ResolveError where
  | lookup
  | remoteUnavailable
deriving DecidableEq, Repr

/-- Modelled from the spec: the Nutrient Resolver (§4.2), absent from
`src/app.py`.  `resolve(foodId)` fails with `LookupError` on an
empty/invalid identifier; otherwise queries the Cache (hit ⇒ return the
cached profile, no remote call); on miss invokes the remote collaborator
(failure ⇒ `RemoteUnavailable`, cache unmodified), extracts the profile,
stores it in the Cache and returns it.  Result is paired with the
updated cache and the number of remote calls invoked. -/
def resolve (remote : Remote) (c : List (String × NutrientProfile))
    (fid : String) :
    Except ResolveError NutrientProfile × List (String × NutrientProfile) × ℕ :=
  if fid = "" then (.error .lookup, c, 0)
  else
    match cacheGet c fid with
    | some p => (.ok p, c, 0)
    | none =>
      match remote fid with
      | none => (.error .remoteUnavailable, c, 1)
      | some fns => (.ok (profileOf fns), cachePut c fid (profileOf fns), 1)

/-! ## Recipe persistence (`save_recipe`, app.py:185–208 and
`get_recipes`, app.py:210–232)

The `recipes` table is modelled as a list of rows; `created_at` (set by
the database) is an abstract timestamp carried on each row. -/

/-- One row of the `recipes` table (app.py:199, 218). -/
structure RecipeRow where
  user_id : ℕ
  name : String
  ingredients : List Ingredient
  nutrition : NutrientProfile
  created_at : ℕ
deriving DecidableEq, Repr

/-- How `save_recipe` can fail: the explicit
`error_response('Missing required fields', 400)` (app.py:195). -/
inductive SaveError where
  | missingFields
deriving DecidableEq, Repr

/-- The `save_recipe` handler body (app.py:187–205).  Python truthiness
of `all([user_id, name, ingredients, nutrition])`: a zero `user_id`, an
absent or empty `name`, an empty `ingredients` list or an absent
`nutrition` is falsy and rejected with 400 before any database access;
otherwise the row is inserted (with the database-assigned `created_at`).
Returns the result together with the table contents afterwards. -/
def save_recipe (store : List RecipeRow) (user_id : ℕ) (name : Option String)
    (ingredients : List Ingredient) (nutrition : Option NutrientProfile)
    (created_at : ℕ) : Except SaveError Unit × List RecipeRow :=
  if user_id = 0 ∨ name.getD "" = "" ∨ ingredients = [] ∨ nutrition = none then
    (.error .missingFields, store)
  else
    match nutrition with
    | none => (.error .missingFields, store)
    | some nut =>
      (.ok (), store ++ [⟨user_id, name.getD "", ingredients, nut, created_at⟩])

/-- Insertion step of `ORDER BY created_at DESC` (app.py:218): keeps the
list in non-increasing `created_at` order. -/
def insertDesc (r : RecipeRow) : List RecipeRow → List RecipeRow
  | [] => [r]
  | x :: xs => if x.created_at ≤ r.created_at then r :: x :: xs else x :: insertDesc r xs

/-- `ORDER BY created_at DESC` as an insertion sort. -/
def sortDesc : List RecipeRow → List RecipeRow
  | [] => []
  | x :: xs => insertDesc x (sortDesc xs)

/-- The `get_recipes` handler body (app.py:212–229):
`SELECT ... FROM recipes WHERE user_id = %s ORDER BY created_at DESC`,
i.e. the rows of the given user, newest first. -/
def get_recipes (store : List RecipeRow) (user_id : ℕ) : List RecipeRow :=
  sortDesc (store.filter (fun r => r.user_id = user_id))

/-! ## Auxiliary definitions used by the statements -/

/-- A fully-specified ingredient line: a present (string) food identifier
together with a numeric quantity, as the handler receives it. -/
def toIngredient (l : String × ℚ × FoodNutrients) : Ingredient :=
  ⟨some l.1, some (.num l.2.1)⟩

/-- The per-line accumulation step: scale the line's profile by
`quantity / 100` and add it to the running totals. -/
def lineStep (t : NutrientProfile) (l : String × ℚ × FoodNutrients) : NutrientProfile :=
  addScaled t (profileOf l.2.2) (l.2.1 / 100)

/-- A line the handler's per-line check rejects with 400: the quantity
coerces, and the identifier is falsy or the quantity is non-positive. -/
def lineInvalid (ing : Ingredient) : Bool :=
  match pyFloat (ing.quantity.getD (.num 0)) with
  | none => false
  | some q => (truthyId ing.fdcId).isNone || decide (q ≤ 0)

/-- All five values of a profile/totals object are non-negative. -/
def ProfileNonneg (t : NutrientProfile) : Prop :=
  0 ≤ t.calories ∧ 0 ≤ t.protein ∧ 0 ≤ t.fat ∧ 0 ≤ t.carbohydrates ∧ 0 ≤ t.fiber

/-- The spec's flour profile `{calories:364, protein:10, fat:1,
carbohydrates:76, fiber:3}` as a remote response. -/
def flourFns : FoodNutrients :=
  [(1008, some 364), (1003, some 10), (1004, some 1), (1005, some 76), (1079, some 3)]

/-- The spec's sugar profile `{calories:400, protein:0, fat:0,
carbohydrates:100, fiber:0}` as a remote response. -/
def sugarFns : FoodNutrients :=
  [(1008, some 400), (1003, some 0), (1004, some 0), (1005, some 100), (1079, some 0)]

/-- A remote collaborator serving the spec's flour (id `"X"`) and sugar
(id `"Y"`) records and failing on every other identifier. -/
def flourSugarRemote : Remote := fun fid =>
  if fid = "X" then some flourFns else if fid = "Y" then some sugarFns else none

/-! ## Helper lemmas -/

/-- Two nutrient profiles agreeing on all five fields are equal. -/
theorem profile_ext {a b : NutrientProfile} (h1 : a.calories = b.calories)
    (h2 : a.protein = b.protein) (h3 : a.fat = b.fat)
    (h4 : a.carbohydrates = b.carbohydrates) (h5 : a.fiber = b.fiber) : a = b := by
  cases a; cases b; simp_all

/-- Running the loop over a prefix of fully valid, resolvable lines
accumulates their scaled profiles and one remote call each, then
continues with the remaining lines. -/
theorem calcLoop_append_valid (remote : Remote) :
    ∀ pre : List (String × ℚ × FoodNutrients),
      (∀ l ∈ pre, l.1 ≠ "" ∧ 0 < l.2.1 ∧ remote l.1 = some l.2.2) →
      ∀ (tail : List Ingredient) (acc : NutrientProfile) (n : ℕ),
        calcLoop remote (pre.map toIngredient ++ tail) acc n
          = calcLoop remote tail (pre.foldl lineStep acc) (n + pre.length) := by
  intro pre
  induction pre with
  | nil => intro _ tail acc n; simp
  | cons l ls ih =>
    intro hpre tail acc n
    have h1 : l.1 ≠ "" := (hpre l (List.mem_cons_self l ls)).1
    have h2 : 0 < l.2.1 := (hpre l (List.mem_cons_self l ls)).2.1
    have h3 : remote l.1 = some l.2.2 := (hpre l (List.mem_cons_self l ls)).2.2
    have hls : ∀ x ∈ ls, x.1 ≠ "" ∧ 0 < x.2.1 ∧ remote x.1 = some x.2.2 :=
      fun x hx => hpre x (List.mem_cons_of_mem l hx)
    have hq : ¬ l.2.1 ≤ 0 := not_le.mpr h2
    simp only [List.map_cons, List.cons_append, calcLoop, toIngredient, Option.getD,
      pyFloat, truthyId, h1, ite_false, if_neg h1, hq, if_neg hq, h3,
      List.foldl_cons, List.length_cons, List.append_eq]
    have hstep : addScaled acc (profileOf l.2.2) (l.2.1 / 100) = lineStep acc l := rfl
    rw [hstep, ih hls tail (lineStep acc l) (n + 1)]
    have hn : n + 1 + ls.length = n + (ls.length + 1) := by omega
    rw [hn]

/-- On a list of fully valid, resolvable lines the loop succeeds with
the folded totals, one remote call per line. -/
theorem calcLoop_valid_eq (remote : Remote) (lines : List (String × ℚ × FoodNutrients))
    (hvalid : ∀ l ∈ lines, l.1 ≠ "" ∧ 0 < l.2.1 ∧ remote l.1 = some l.2.2)
    (acc : NutrientProfile) (n : ℕ) :
    calcLoop remote (lines.map toIngredient) acc n
      = (.ok (lines.foldl lineStep acc), n + lines.length) := by
  have h := calcLoop_append_valid remote lines hvalid [] acc n
  simpa [calcLoop] using h

/-- Folding `lineStep` distributes over any field projection `f` that is
affine under `addScaled`, turning the fold into a per-line sum. -/
theorem foldl_lineStep_field (f : NutrientProfile → ℚ)
    (hf : ∀ t p s, f (addScaled t p s) = f t + f p * s)
    (lines : List (String × ℚ × FoodNutrients)) (acc : NutrientProfile) :
    f (lines.foldl lineStep acc)
      = f acc + (lines.map (fun l => f (profileOf l.2.2) * (l.2.1 / 100))).sum := by
  induction lines generalizing acc with
  | nil => simp
  | cons l ls ih =>
    rw [List.foldl_cons, ih]
    simp only [lineStep, hf, List.map_cons, List.sum_cons]
    ring

/-- C1: on any non-empty sequence of ingredient lines, each with a
present food identifier and a positive quantity, when every remote
lookup succeeds `calculate_nutrition` returns totals in which each of
the five nutrient keys is the sum over the lines of that line's per-100g
nutrient amount times `quantity / 100`. -/
theorem calculate_nutrition_totals (remote : Remote)
    (lines : List (String × ℚ × FoodNutrients)) (hne : lines ≠ [])
    (hvalid : ∀ l ∈ lines, l.1 ≠ "" ∧ 0 < l.2.1 ∧ remote l.1 = some l.2.2) :
    (calculate_nutrition remote (lines.map toIngredient)).1
      = .ok { calories := (lines.map (fun l => (profileOf l.2.2).calories * (l.2.1 / 100))).sum
              protein := (lines.map (fun l => (profileOf l.2.2).protein * (l.2.1 / 100))).sum
              fat := (lines.map (fun l => (profileOf l.2.2).fat * (l.2.1 / 100))).sum
              carbohydrates :=
                (lines.map (fun l => (profileOf l.2.2).carbohydrates * (l.2.1 / 100))).sum
              fiber := (lines.map (fun l => (profileOf l.2.2).fiber * (l.2.1 / 100))).sum } := by
  have hmap : ¬ lines.map toIngredient = [] := by simpa using hne
  rw [calculate_nutrition, if_neg hmap, calcLoop_valid_eq remote lines hvalid zeroProfile 0]
  refine congrArg Except.ok (profile_ext ?_ ?_ ?_ ?_ ?_)
  · rw [foldl_lineStep_field (fun t => t.calories) (fun _ _ _ => rfl)]; simp [zeroProfile]
  · rw [foldl_lineStep_field (fun t => t.protein) (fun _ _ _ => rfl)]; simp [zeroProfile]
  · rw [foldl_lineStep_field (fun t => t.fat) (fun _ _ _ => rfl)]; simp [zeroProfile]
  · rw [foldl_lineStep_field (fun t => t.carbohydrates) (fun _ _ _ => rfl)]; simp [zeroProfile]
  · rw [foldl_lineStep_field (fun t => t.fiber) (fun _ _ _ => rfl)]; simp [zeroProfile]

/-- C1 witness: the spec's flour/sugar scenario,
`aggregate([{X,100},{Y,50}]) = {calories:564, protein:10, fat:1,
carbohydrates:126, fiber:3}`. -/
theorem calculate_nutrition_totals_witness :
    (calculate_nutrition flourSugarRemote
        ([("X", (100 : ℚ), flourFns), ("Y", (50 : ℚ), sugarFns)].map toIngredient)).1
      = .ok ⟨564, 10, 1, 126, 3⟩ := by
  have h := calculate_nutrition_totals flourSugarRemote
      [("X", (100 : ℚ), flourFns), ("Y", (50 : ℚ), sugarFns)] (by simp)
      (by
        intro l hl
        simp only [List.mem_cons, List.not_mem_nil, or_false] at hl
        rcases hl with h | h <;> subst h <;>
          exact ⟨by simp, by norm_num, by simp [flourSugarRemote]⟩)
  rw [h]
  refine congrArg Except.ok (profile_ext ?_ ?_ ?_ ?_ ?_) <;>
    · simp only [profileOf, nutrientsDict, nutrientsGet, flourFns, sugarFns, List.find?,
        List.map, List.reverse, List.reverseAux, List.append_eq, List.nil_append,
        List.cons_append, Nat.reduceBEq, Option.map, Option.getD, List.sum_cons, List.sum_nil]
      norm_num

/-- A profile just stored under `fid` is what `get(fid)` returns. -/
theorem cacheGet_cachePut (c : List (String × NutrientProfile)) (fid : String)
    (p : NutrientProfile) : cacheGet (cachePut c fid p) fid = some p := by
  simp [cacheGet, cachePut, List.find?]

/-- C2: after a successful `resolve(id)`, resolving the same id again
hits the cache: it returns a profile bit-identical to the first call's
result, leaves the cache unchanged, and issues zero remote calls. -/
theorem resolve_cache_idempotent (remote : Remote)
    (c : List (String × NutrientProfile)) (fid : String) (p : NutrientProfile)
    (c' : List (String × NutrientProfile)) (n : ℕ)
    (h : resolve remote c fid = (.ok p, c', n)) :
    resolve remote c' fid = (.ok p, c', 0) := by
  by_cases hfid : fid = ""
  · simp [resolve, hfid] at h
  · cases hget : cacheGet c fid with
    | some q =>
      rw [resolve, if_neg hfid, hget] at h
      obtain ⟨h1, h2, -⟩ :
          (Except.ok q : Except ResolveError NutrientProfile) = Except.ok p
            ∧ c = c' ∧ 0 = n := by
        simpa [Prod.ext_iff] using h
      rw [resolve, if_neg hfid, ← h2, hget]
      simpa using h1
    | none =>
      cases hrem : remote fid with
      | none => rw [resolve, if_neg hfid, hget, hrem] at h; simp at h
      | some fns =>
        rw [resolve, if_neg hfid, hget, hrem] at h
        obtain ⟨h1, h2, -⟩ :
            (Except.ok (profileOf fns) : Except ResolveError NutrientProfile) = Except.ok p
              ∧ cachePut c fid (profileOf fns) = c' ∧ 1 = n := by
          simpa [Prod.ext_iff] using h
        obtain rfl : profileOf fns = p := by simpa using h1
        rw [resolve, if_neg hfid, ← h2, cacheGet_cachePut]

/-- C2 witness: resolving `"X"` against an empty cache then resolving it
again returns the identical profile with zero further remote calls. -/
theorem resolve_cache_idempotent_witness :
    resolve (fun _ => some [(1008, some 1)])
        [("X", ⟨1, 0, 0, 0, 0⟩)] "X"
      = (.ok ⟨1, 0, 0, 0, 0⟩, [("X", ⟨1, 0, 0, 0, 0⟩)], 0) :=
  resolve_cache_idempotent (fun _ => some [(1008, some 1)]) [] "X"
    ⟨1, 0, 0, 0, 0⟩ [("X", ⟨1, 0, 0, 0, 0⟩)] 1
    (by
      simp only [resolve, cacheGet, cachePut, List.find?, profileOf, nutrientsDict,
        nutrientsGet, List.map, List.reverse, List.reverseAux, List.append_eq,
        List.nil_append, List.cons_append, Nat.reduceBEq, Option.map, Option.getD,
        List.filter, String.reduceEq, reduceIte])

/-- C3 counterexample: a sequence whose second line has a missing food
identifier is rejected with the 400 validation error only after the
first line's remote lookup has been issued — the remote call count is 1,
not 0. -/
theorem calc_invalid_second_line_one_call :
    calculate_nutrition flourSugarRemote
        [⟨some "X", some (.num 100)⟩, ⟨none, some (.num 100)⟩]
      = (.error .invalidIngredient, 1) := by
  simp only [calculate_nutrition, calcLoop, pyFloat, truthyId, flourSugarRemote, addScaled,
    profileOf, nutrientsDict, nutrientsGet, zeroProfile, List.map, List.reverse, List.find?,
    List.reverseAux, Option.getD, Option.map, reduceIte, String.reduceEq, List.cons_ne_nil,
    Nat.reduceBEq]
  norm_num

/-- C3 amended: each line is validated immediately before its own remote
call, not before any call is issued.  A rejected line that follows `pre`
fully valid, resolvable lines yields the 400 validation error with
exactly `pre.length` remote calls already issued; when the invalid line
comes first, the count is zero. -/
theorem calc_validation_after_prior_lookups (remote : Remote)
    (pre : List (String × ℚ × FoodNutrients)) (bad : Ingredient)
    (rest : List Ingredient)
    (hpre : ∀ l ∈ pre, l.1 ≠ "" ∧ 0 < l.2.1 ∧ remote l.1 = some l.2.2)
    (hbad : lineInvalid bad = true) :
    calculate_nutrition remote (pre.map toIngredient ++ bad :: rest)
      = (.error .invalidIngredient, pre.length) := by
  have hne : ¬ pre.map toIngredient ++ bad :: rest = [] := by simp
  rw [calculate_nutrition, if_neg hne,
    calcLoop_append_valid remote pre hpre (bad :: rest) zeroProfile 0]
  rw [lineInvalid] at hbad
  cases hq : pyFloat (bad.quantity.getD (.num 0)) with
  | none => rw [hq] at hbad; simp at hbad
  | some q =>
    rw [hq] at hbad
    simp only [Bool.or_eq_true, Option.isNone_iff_eq_none, decide_eq_true_eq] at hbad
    rcases hbad with ht | hle
    · simp [calcLoop, hq, ht]
    · cases ht : truthyId bad.fdcId with
      | none => simp [calcLoop, hq, ht]
      | some fid => simp [calcLoop, hq, ht, hle]

/-- C3-amended witness: with one valid line before the invalid one, the
request fails with the 400 validation error after exactly one remote
call. -/
theorem calc_validation_after_prior_lookups_witness :
    calculate_nutrition flourSugarRemote
        ([("X", (100 : ℚ), flourFns)].map toIngredient
          ++ (⟨none, some (.num 100)⟩ : Ingredient) :: [])
      = (.error .invalidIngredient, 1) :=
  calc_validation_after_prior_lookups flourSugarRemote [("X", (100 : ℚ), flourFns)]
    ⟨none, some (.num 100)⟩ []
    (by
      intro l hl
      simp only [List.mem_cons, List.not_mem_nil, or_false] at hl
      subst hl
      exact ⟨by simp, by norm_num, by simp [flourSugarRemote]⟩)
    (by decide)

/-- C4: when a line's remote resolution fails after any number of
already-resolved lines, the whole aggregation fails with that line's
error — the result is the failing line's remote error, not totals, so
the earlier lines' contributions are never observable. -/
theorem calc_remote_failure_aborts (remote : Remote)
    (pre : List (String × ℚ × FoodNutrients)) (bad : Ingredient)
    (rest : List Ingredient) (q : ℚ) (fid : String)
    (hpre : ∀ l ∈ pre, l.1 ≠ "" ∧ 0 < l.2.1 ∧ remote l.1 = some l.2.2)
    (hq : pyFloat (bad.quantity.getD (.num 0)) = some q) (hqpos : 0 < q)
    (hfid : truthyId bad.fdcId = some fid) (hrem : remote fid = none) :
    (calculate_nutrition remote (pre.map toIngredient ++ bad :: rest)).1
      = .error (.remote fid) := by
  have hne : ¬ pre.map toIngredient ++ bad :: rest = [] := by simp
  rw [calculate_nutrition, if_neg hne,
    calcLoop_append_valid remote pre hpre (bad :: rest) zeroProfile 0]
  have hle : ¬ q ≤ 0 := not_le.mpr hqpos
  simp [calcLoop, hq, hfid, hle, hrem]

/-- C4 witness: the flour line resolves, then the lookup for `"Z"` fails
and the request returns that line's remote error with no totals. -/
theorem calc_remote_failure_aborts_witness :
    (calculate_nutrition flourSugarRemote
        ([("X", (100 : ℚ), flourFns)].map toIngredient
          ++ (⟨some "Z", some (.num 10)⟩ : Ingredient) :: [])).1
      = .error (.remote "Z") :=
  calc_remote_failure_aborts flourSugarRemote [("X", (100 : ℚ), flourFns)]
    ⟨some "Z", some (.num 10)⟩ [] 10 "Z"
    (by
      intro l hl
      simp only [List.mem_cons, List.not_mem_nil, or_false] at hl
      subst hl
      exact ⟨by simp, by norm_num, by simp [flourSugarRemote]⟩)
    rfl (by norm_num) (by simp [truthyId]) (by simp [flourSugarRemote])

/-- C10: a line whose quantity is present but not coercible to a number
makes the whole request fail with the generic 500 internal error (the
`float` exception), not the 400 `ValidationError`, regardless of how
many valid lines precede it — the coercion runs before the per-line
validation check. -/
theorem calc_bad_quantity_internal_error (remote : Remote)
    (pre : List (String × ℚ × FoodNutrients)) (bad : Ingredient)
    (rest : List Ingredient)
    (hpre : ∀ l ∈ pre, l.1 ≠ "" ∧ 0 < l.2.1 ∧ remote l.1 = some l.2.2)
    (hbad : pyFloat (bad.quantity.getD (.num 0)) = none) :
    (calculate_nutrition remote (pre.map toIngredient ++ bad :: rest)).1
      = .error .coercion
      ∧ httpStatus .coercion = 500 ∧ isValidation .coercion = false := by
  refine ⟨?_, rfl, rfl⟩
  have hne : ¬ pre.map toIngredient ++ bad :: rest = [] := by simp
  rw [calculate_nutrition, if_neg hne,
    calcLoop_append_valid remote pre hpre (bad :: rest) zeroProfile 0]
  simp [calcLoop, hbad]

/-- C10 witness: a line with a non-numeric quantity — and even a missing
food identifier — yields the 500 coercion error, not the 400 validation
error, showing the coercion precedes the validation check. -/
theorem calc_bad_quantity_internal_error_witness :
    (calculate_nutrition flourSugarRemote
        ([] ++ (⟨none, some .bad⟩ : Ingredient) :: [])).1 = .error .coercion
      ∧ httpStatus .coercion = 500 ∧ isValidation .coercion = false :=
  calc_bad_quantity_internal_error flourSugarRemote [] ⟨none, some .bad⟩ []
    (by simp) rfl

/-- C5 counterexample: a sequence containing a line with a missing food
identifier does not always fail with `ValidationError` — if an earlier
line's remote lookup fails first, the request fails with the 500 remote
error instead. -/
theorem calc_remote_error_preempts_validation :
    (calculate_nutrition (fun _ => none)
        [⟨some "X", some (.num 100)⟩, ⟨none, some (.num 100)⟩]).1
      = .error (.remote "X")
      ∧ (⟨none, some (.num 100)⟩ : Ingredient).fdcId = none
      ∧ isValidation (.remote "X") = false := by
  refine ⟨?_, rfl, rfl⟩
  simp only [calculate_nutrition, calcLoop, pyFloat, truthyId, addScaled, profileOf,
    nutrientsDict, nutrientsGet, zeroProfile, List.map, List.reverse, List.find?,
    List.reverseAux, Option.getD, Option.map, reduceIte, String.reduceEq,
    List.cons_ne_nil, Nat.reduceBEq]
  norm_num

/-- While the loop still has lines to process, it ends in a 400
validation error exactly when some remaining line is invalid — provided
every quantity coerces and every remote lookup succeeds. -/
theorem calcLoop_validation_iff (remote : Remote)
    (hrem : ∀ fid, (remote fid).isSome) :
    ∀ ings : List Ingredient,
      (∀ ing ∈ ings, (pyFloat (ing.quantity.getD (.num 0))).isSome) →
      ∀ (acc : NutrientProfile) (n : ℕ),
        (∃ e, (calcLoop remote ings acc n).1 = .error e ∧ isValidation e = true)
          ↔ ∃ ing ∈ ings, lineInvalid ing = true := by
  intro ings
  induction ings with
  | nil => intro _ acc n; simp [calcLoop]
  | cons ing rest ih =>
    intro hco acc n
    obtain ⟨q, hq⟩ := Option.isSome_iff_exists.mp (hco ing (List.mem_cons_self ing rest))
    have hco' : ∀ i ∈ rest, (pyFloat (i.quantity.getD (.num 0))).isSome :=
      fun i hi => hco i (List.mem_cons_of_mem ing hi)
    cases ht : truthyId ing.fdcId with
    | none =>
      simp [calcLoop, hq, ht, lineInvalid, isValidation]
    | some fid =>
      by_cases hle : q ≤ 0
      · simp [calcLoop, hq, ht, hle, lineInvalid, isValidation]
      · obtain ⟨fns, hfns⟩ := Option.isSome_iff_exists.mp (hrem fid)
        simp only [calcLoop, hq, ht, if_neg hle, hfns]
        rw [ih hco' (addScaled acc (profileOf fns) (q / 100)) (n + 1)]
        simp [lineInvalid, hq, ht, hle]

/-- C5 amended: provided every present quantity is coercible and every
remote lookup succeeds, the request fails with `ValidationError` (a
400-status error) exactly when the sequence is empty or some line has a
falsy food identifier or a non-positive quantity; and an empty sequence
always yields the validation error, never zero totals. -/
theorem calc_validation_error_iff (remote : Remote) (ings : List Ingredient)
    (hrem : ∀ fid, (remote fid).isSome)
    (hco : ∀ ing ∈ ings, (pyFloat (ing.quantity.getD (.num 0))).isSome) :
    ((∃ e, (calculate_nutrition remote ings).1 = .error e ∧ isValidation e = true)
        ↔ (ings = [] ∨ ∃ ing ∈ ings, lineInvalid ing = true))
      ∧ calculate_nutrition remote [] = (.error .noIngredients, 0) := by
  constructor
  · by_cases hne : ings = []
    · subst hne
      simp [calculate_nutrition, isValidation]
    · rw [calculate_nutrition, if_neg hne,
        calcLoop_validation_iff remote hrem ings hco zeroProfile 0]
      simp [hne]
  · simp [calculate_nutrition]

/-- C5-amended witness: a single line with a missing identifier, under a
total remote collaborator, makes both sides of the equivalence hold. -/
theorem calc_validation_error_iff_witness :
    ((∃ e, (calculate_nutrition (fun _ => some [])
          [⟨none, some (.num 100)⟩]).1 = .error e ∧ isValidation e = true)
        ↔ (([⟨none, some (.num 100)⟩] : List Ingredient) = []
            ∨ ∃ ing ∈ ([⟨none, some (.num 100)⟩] : List Ingredient),
                lineInvalid ing = true))
      ∧ calculate_nutrition (fun _ => some []) [] = (.error .noIngredients, 0) :=
  calc_validation_error_iff (fun _ => some []) [⟨none, some (.num 100)⟩]
    (fun _ => rfl) (by decide)

/-- A nutrient id bound nowhere in the dict looks up as the default 0. -/
theorem nutrientsGet_of_absent (d : List (ℕ × ℚ)) (nid : ℕ)
    (h : ∀ p ∈ d, p.1 ≠ nid) : nutrientsGet d nid = 0 := by
  rw [nutrientsGet]
  have hf : d.reverse.find? (fun p => p.1 == nid) = none := by
    rw [List.find?_eq_none]
    intro p hp
    simpa using h p (List.mem_reverse.mp hp)
  rw [hf]
  rfl

/-- A nutrient id not occurring in a remote response looks up as 0 in
the extracted dict. -/
theorem nutrientsDict_absent (fns : FoodNutrients) (nid : ℕ)
    (h : ∀ p ∈ fns, p.1 ≠ nid) :
    nutrientsGet (nutrientsDict fns) nid = 0 := by
  apply nutrientsGet_of_absent
  intro p hp
  simp only [nutrientsDict, List.mem_map] at hp
  obtain ⟨a, ha, rfl⟩ := hp
  exact h a ha

/-- C6: the profile extracted from any remote response always carries
all five nutrient fields (it is a total five-field record by
construction), and each recognized nutrient that is absent from the
response contributes the value 0 rather than an absent key. -/
theorem profileOf_absent_defaults_zero (fns : FoodNutrients) :
    ((∀ p ∈ fns, p.1 ≠ 1008) → (profileOf fns).calories = 0)
      ∧ ((∀ p ∈ fns, p.1 ≠ 1003) → (profileOf fns).protein = 0)
      ∧ ((∀ p ∈ fns, p.1 ≠ 1004) → (profileOf fns).fat = 0)
      ∧ ((∀ p ∈ fns, p.1 ≠ 1005) → (profileOf fns).carbohydrates = 0)
      ∧ ((∀ p ∈ fns, p.1 ≠ 1079) → (profileOf fns).fiber = 0) :=
  ⟨fun h => nutrientsDict_absent fns 1008 h,
   fun h => nutrientsDict_absent fns 1003 h,
   fun h => nutrientsDict_absent fns 1004 h,
   fun h => nutrientsDict_absent fns 1005 h,
   fun h => nutrientsDict_absent fns 1079 h⟩

/-- C6 witness: a response mentioning only an unrecognized nutrient id
yields the profile with all five fields present and equal to 0. -/
theorem profileOf_absent_defaults_zero_witness :
    (profileOf [(9999, some 5)]).calories = 0
      ∧ (profileOf [(9999, some 5)]).protein = 0
      ∧ (profileOf [(9999, some 5)]).fat = 0
      ∧ (profileOf [(9999, some 5)]).carbohydrates = 0
      ∧ (profileOf [(9999, some 5)]).fiber = 0 :=
  ⟨(profileOf_absent_defaults_zero [(9999, some 5)]).1 (by decide),
   (profileOf_absent_defaults_zero [(9999, some 5)]).2.1 (by decide),
   (profileOf_absent_defaults_zero [(9999, some 5)]).2.2.1 (by decide),
   (profileOf_absent_defaults_zero [(9999, some 5)]).2.2.2.1 (by decide),
   (profileOf_absent_defaults_zero [(9999, some 5)]).2.2.2.2 (by decide)⟩

/-- When every amount in a response is non-negative, so is every lookup
in its extracted dict. -/
theorem nutrientsGet_nonneg (fns : FoodNutrients)
    (h : ∀ p ∈ fns, 0 ≤ p.2.getD 0) (nid : ℕ) :
    0 ≤ nutrientsGet (nutrientsDict fns) nid := by
  rw [nutrientsGet]
  cases hf : (nutrientsDict fns).reverse.find? (fun p => p.1 == nid) with
  | none => simp
  | some pr =>
    have hmem := List.mem_reverse.mp (List.mem_of_find?_eq_some hf)
    simp only [nutrientsDict, List.mem_map] at hmem
    obtain ⟨a, ha, rfl⟩ := hmem
    simpa using h a ha

/-- A profile extracted from a response with non-negative amounts is
non-negative in every field. -/
theorem profileOf_nonneg (fns : FoodNutrients)
    (h : ∀ p ∈ fns, 0 ≤ p.2.getD 0) : ProfileNonneg (profileOf fns) :=
  ⟨nutrientsGet_nonneg fns h 1008, nutrientsGet_nonneg fns h 1003,
   nutrientsGet_nonneg fns h 1004, nutrientsGet_nonneg fns h 1005,
   nutrientsGet_nonneg fns h 1079⟩

/-- The accumulation step preserves non-negativity for a non-negative
profile and scale. -/
theorem addScaled_nonneg (t p : NutrientProfile) (s : ℚ)
    (ht : ProfileNonneg t) (hp : ProfileNonneg p) (hs : 0 ≤ s) :
    ProfileNonneg (addScaled t p s) := by
  obtain ⟨t1, t2, t3, t4, t5⟩ := ht
  obtain ⟨p1, p2, p3, p4, p5⟩ := hp
  exact ⟨add_nonneg t1 (mul_nonneg p1 hs), add_nonneg t2 (mul_nonneg p2 hs),
    add_nonneg t3 (mul_nonneg p3 hs), add_nonneg t4 (mul_nonneg p4 hs),
    add_nonneg t5 (mul_nonneg p5 hs)⟩

/-- If the loop succeeds starting from non-negative running totals and
every remote amount is non-negative, the final totals are
non-negative. -/
theorem calcLoop_ok_nonneg (remote : Remote)
    (hamounts : ∀ fid fns, remote fid = some fns → ∀ p ∈ fns, 0 ≤ p.2.getD 0) :
    ∀ (ings : List Ingredient) (acc : NutrientProfile), ProfileNonneg acc →
      ∀ (n : ℕ) (t : NutrientProfile) (m : ℕ),
        calcLoop remote ings acc n = (.ok t, m) → ProfileNonneg t := by
  intro ings
  induction ings with
  | nil =>
    intro acc hacc n t m h
    obtain ⟨h1, -⟩ : acc = t ∧ n = m := by simpa [calcLoop, Prod.ext_iff] using h
    exact h1 ▸ hacc
  | cons ing rest ih =>
    intro acc hacc n t m h
    cases hq : pyFloat (ing.quantity.getD (.num 0)) with
    | none => simp [calcLoop, hq] at h
    | some q =>
      cases ht : truthyId ing.fdcId with
      | none => simp [calcLoop, hq, ht] at h
      | some fid =>
        by_cases hle : q ≤ 0
        · simp [calcLoop, hq, ht, hle] at h
        · cases hrem : remote fid with
          | none => simp [calcLoop, hq, ht, hle, hrem] at h
          | some fns =>
            simp only [calcLoop, hq, ht, if_neg hle, hrem] at h
            have hq100 : (0 : ℚ) ≤ q / 100 :=
              div_nonneg (le_of_lt (not_le.mp hle)) (by norm_num)
            exact ih (addScaled acc (profileOf fns) (q / 100))
              (addScaled_nonneg acc (profileOf fns) (q / 100) hacc
                (profileOf_nonneg fns (hamounts fid fns hrem)) hq100)
              (n + 1) t m h

/-- C7: whenever every nutrient amount in every remote response is
non-negative, any totals object a successful `calculate_nutrition`
returns has all five values non-negative.  (Success already forces every
line's quantity to be positive.) -/
theorem calc_totals_nonneg (remote : Remote) (ings : List Ingredient)
    (t : NutrientProfile)
    (hamounts : ∀ fid fns, remote fid = some fns → ∀ p ∈ fns, 0 ≤ p.2.getD 0)
    (hok : (calculate_nutrition remote ings).1 = .ok t) :
    ProfileNonneg t := by
  rw [calculate_nutrition] at hok
  by_cases hne : ings = []
  · rw [if_pos hne] at hok
    simp at hok
  · rw [if_neg hne] at hok
    cases hpr : calcLoop remote ings zeroProfile 0 with
    | mk res m =>
      rw [hpr] at hok
      obtain rfl : res = Except.ok t := hok
      exact calcLoop_ok_nonneg remote hamounts ings zeroProfile
        ⟨le_refl 0, le_refl 0, le_refl 0, le_refl 0, le_refl 0⟩ 0 t m hpr

/-- C7 witness: a 50 g line over a profile with calories 2 per 100 g
yields the non-negative totals `⟨1, 0, 0, 0, 0⟩`. -/
theorem calc_totals_nonneg_witness : ProfileNonneg ⟨1, 0, 0, 0, 0⟩ :=
  calc_totals_nonneg (fun _ => some [(1008, some 2)])
    [⟨some "X", some (.num 50)⟩] ⟨1, 0, 0, 0, 0⟩
    (by
      intro fid fns hf p hp
      obtain rfl : [((1008 : ℕ), some (2 : ℚ))] = fns := by simpa using hf
      obtain rfl : p = ((1008 : ℕ), some (2 : ℚ)) := by simpa using hp
      norm_num)
    (by
      simp only [calculate_nutrition, calcLoop, pyFloat, truthyId, addScaled, profileOf,
        nutrientsDict, nutrientsGet, zeroProfile, List.map, List.reverse, List.find?,
        List.reverseAux, Option.getD, Option.map, reduceIte, String.reduceEq,
        List.cons_ne_nil, Nat.reduceBEq]
      norm_num)

/-- C8: `save_recipe` with an absent/empty name or an empty ingredient
list fails with the 400 validation error and leaves the recipe store
exactly as it was — nothing is persisted. -/
theorem save_recipe_rejects_empty (store : List RecipeRow) (user_id : ℕ)
    (name : Option String) (ingredients : List Ingredient)
    (nutrition : Option NutrientProfile) (created_at : ℕ)
    (h : name.getD "" = "" ∨ ingredients = []) :
    save_recipe store user_id name ingredients nutrition created_at
      = (.error .missingFields, store) := by
  rw [save_recipe.eq_def, if_pos]
  rcases h with h | h
  · exact Or.inr (Or.inl h)
  · exact Or.inr (Or.inr (Or.inl h))

/-- C8 witness: saving a recipe with an empty ingredient list fails and
persists nothing. -/
theorem save_recipe_rejects_empty_witness :
    save_recipe [] 1 (some "cake") [] (some zeroProfile) 7
      = (.error .missingFields, []) :=
  save_recipe_rejects_empty [] 1 (some "cake") [] (some zeroProfile) 7 (Or.inr rfl)

/-- Inserting into a list is a permutation of consing. -/
theorem insertDesc_perm (r : RecipeRow) (l : List RecipeRow) :
    (insertDesc r l).Perm (r :: l) := by
  induction l with
  | nil => exact List.Perm.refl _
  | cons x xs ih =>
    rw [insertDesc]
    by_cases h : x.created_at ≤ r.created_at
    · rw [if_pos h]
    · rw [if_neg h]
      exact (ih.cons x).trans (List.Perm.swap r x xs)

/-- The sort is a permutation of its input. -/
theorem sortDesc_perm (l : List RecipeRow) : (sortDesc l).Perm l := by
  induction l with
  | nil => exact List.Perm.refl _
  | cons x xs ih =>
    rw [sortDesc]
    exact (insertDesc_perm x (sortDesc xs)).trans (ih.cons x)

/-- Insertion preserves the non-increasing-timestamp invariant. -/
theorem insertDesc_pairwise (r : RecipeRow) (l : List RecipeRow)
    (h : l.Pairwise (fun a b => b.created_at ≤ a.created_at)) :
    (insertDesc r l).Pairwise (fun a b => b.created_at ≤ a.created_at) := by
  induction l with
  | nil => simp [insertDesc]
  | cons x xs ih =>
    obtain ⟨hx, hxs⟩ := List.pairwise_cons.mp h
    rw [insertDesc]
    by_cases hle : x.created_at ≤ r.created_at
    · rw [if_pos hle]
      refine List.pairwise_cons.mpr ⟨?_, h⟩
      intro b hb
      rcases List.mem_cons.mp hb with rfl | hbxs
      · exact hle
      · exact le_trans (hx b hbxs) hle
    · rw [if_neg hle]
      refine List.pairwise_cons.mpr ⟨?_, ih hxs⟩
      intro b hb
      rcases List.mem_cons.mp ((insertDesc_perm r xs).mem_iff.mp hb) with rfl | hbxs
      · exact le_of_not_le hle
      · exact hx b hbxs

/-- The sort's output is in non-increasing timestamp order. -/
theorem sortDesc_pairwise (l : List RecipeRow) :
    (sortDesc l).Pairwise (fun a b => b.created_at ≤ a.created_at) := by
  induction l with
  | nil => simp [sortDesc]
  | cons x xs ih => exact insertDesc_pairwise x (sortDesc xs) ih

/-- C9: `get_recipes` returns exactly the given user's rows, in
newest-first (non-increasing `created_at`) order, and for a user with no
rows it returns the empty sequence rather than an error. -/
theorem get_recipes_newest_first (store : List RecipeRow) (user_id : ℕ) :
    (get_recipes store user_id).Perm
        (store.filter (fun r => r.user_id = user_id))
      ∧ (get_recipes store user_id).Pairwise
          (fun a b => b.created_at ≤ a.created_at)
      ∧ ((∀ r ∈ store, r.user_id ≠ user_id) → get_recipes store user_id = []) := by
  refine ⟨sortDesc_perm _, sortDesc_pairwise _, ?_⟩
  intro h
  rw [get_recipes]
  have hfil : store.filter (fun r => r.user_id = user_id) = [] := by
    rw [List.filter_eq_nil_iff]
    intro a ha
    simpa using h a ha
  rw [hfil]
  rfl

/-- C9 witness: a store holding only another user's recipe yields the
empty list for this user. -/
theorem get_recipes_newest_first_witness :
    get_recipes [⟨1, "a", [], zeroProfile, 5⟩] 2 = [] :=
  (get_recipes_newest_first [⟨1, "a", [], zeroProfile, 5⟩] 2).2.2 (by decide)
